import Mathlib

/-!
Shallow embedding of the `gachi_http` library (src/gachi_http/__init__.py):
a client-side batch HTTP engine.  Python functions become Lean functions;
Python exceptions become `Except PyError`; the cooperative scheduler and the
connection semaphore become an explicit transition system; the network
transport becomes an oracle parameter.  Theorems at the end settle the
frozen claims C1..C10 about this program.
-/

namespace GachiHttp

/-- Python exceptions that the embedded code can raise. -/
inductive PyError where
  | indexError
  | attributeError
  | typeError
  | jsonDecodeError
  deriving Repr, DecidableEq

/-- Bytes are modelled as lists of natural numbers (each < 256 on real inputs). -/
abbrev Bytes := List Nat

/-- latin1 ("single byte per character") decode of a byte string, as done by
`self.content.decode("latin1")` in `Response.__init__`. -/
def latin1Decode (bs : Bytes) : String :=
  String.mk (bs.map Char.ofNat)

/-- Encode an ASCII/latin1 string into bytes (used to build concrete response
bodies in theorems). -/
def strBytes (s : String) : Bytes :=
  s.data.map Char.toNat

/-- JSON values, the result of decoding a response body. -/
inductive Json where
  | null
  | bool (b : Bool)
  | num (n : Int)
  | str (s : String)
  | arr (elems : List Json)
  | obj (members : List (String × Json))
  deriving Repr

/-- `Response` (src line 10): the normalized response object.  `text` is the
latin1 decode of `content` when content was captured, else `None`. -/
structure Response where
  url : String
  status_code : Nat
  content : Option Bytes
  text : Option String
  headers : List (String × String)
  deriving Repr

/-- `Response.__init__` (src lines 11-29): stores url, status and headers,
and sets `text` to the latin1 decode of `content` exactly when content is
present.  The aiohttp headers are copied key by key into a plain dict, which
on an association list is the identity copy. -/
def Response.make (url : String) (status : Nat) (headers : List (String × String))
    (content : Option Bytes) : Response :=
  { url := url
    status_code := status
    content := content
    text := content.map latin1Decode
    headers := headers }

/-- Resolved proxy connector handle, the result of
`ProxyConnector.from_url(proxies)`.  Modelled from the spec: the Proxy
Resolver (`aiohttp_socks.ProxyConnector.from_url`, external to src/) parses a
validated proxy URL string into a normalized connector configuration; here it
is the tagged wrapper of that string. -/
structure ProxyConn where
  fromUrl ::
  proxyUrl : String
  deriving Repr, DecidableEq

/-- A proxy specification as accepted by the builder: either a single URL
string or a scheme-to-URL mapping (Python dict, modelled as an association
list in insertion order). -/
inductive Proxies where
  | str (s : String)
  | dict (m : List (String × String))
  deriving Repr, DecidableEq

/-- `Request` (src line 102): immutable descriptor of one pending HTTP call.
`params`, `data`, `json` and `headers` only flow through the builder into the
transport call, so their payload types are abstract strings here; `proxies`
holds the resolved connector (or none), `skip_headers` the header-suppression
list. -/
structure Request where
  method : String
  url : String
  params : Option String
  data : Option String
  json : Option String
  headers : Option (List (String × String))
  proxies : Option ProxyConn
  skip_headers : List String
  deriving Repr

/-- Python's `str.upper()` on the ASCII method strings: uppercase each
character. -/
def pyUpper (s : String) : String :=
  String.mk (s.data.map Char.toUpper)

/-- Python's `str.startswith(prefix)`: character-wise prefix test. -/
def pyStartswith (word pre : String) : Bool :=
  pre.data.isPrefixOf word.data

/-- `__startswith` (src lines 136-149): whether `word` starts with one of the
words of `_list`, by scanning the list and breaking at the first prefix hit. -/
def startswith (word : String) : List String → Bool
  | [] => false
  | w :: ws => if pyStartswith word w then true else startswith word ws

/-- The seven supported verbs, in the order of the membership test at
src line 173. -/
def supportedMethods : List String :=
  ["POST", "GET", "PUT", "HEAD", "OPTIONS", "DELETE", "PATCH"]

/-- The recognized proxy scheme prefixes, in the order of src line 178. -/
def proxyPrefixes : List String :=
  ["http", "https", "socks4", "socks5"]

/-- `request` (src lines 152-182), the core descriptor builder.
Faithful step order: normalize `skip_headers`, append "Content-Type" when
both bodies are absent, reject unsupported methods with `None`, then resolve
the proxy: a dict yields its first value (an empty dict raises `IndexError`,
since `list(proxies.values())[0]` indexes an empty list), a string whose
prefix is not recognized is dropped to `None`, otherwise it is resolved via
`ProxyConnector.from_url`.  Python's `method.upper()` is `pyUpper`. -/
def request (method : String) (url : String) (params : Option String := none)
    (data : Option String := none) (json : Option String := none)
    (headers : Option (List (String × String)) := none)
    (proxies : Option Proxies := none) (skip_headers : Option (List String) := none) :
    Except PyError (Option Request) := do
  let sk := skip_headers.getD []
  let sk := if data = none ∧ json = none then sk ++ ["Content-Type"] else sk
  if pyUpper method ∉ supportedMethods then
    return none
  let proxyStr : Option String ←
    match proxies with
    | none => pure none
    | some (.str s) => pure (some s)
    | some (.dict []) => throw .indexError
    | some (.dict ((_, v) :: _)) => pure (some v)
  let resolved : Option ProxyConn :=
    match proxyStr with
    | none => none
    | some s => if startswith s proxyPrefixes then some (ProxyConn.fromUrl s) else none
  return some
    { method := pyUpper method
      url := url
      params := params
      data := data
      json := json
      headers := headers
      proxies := resolved
      skip_headers := sk }

/-! ## JSON decoding (`Response.json`, src lines 31-37) -/

/-- Skip JSON whitespace. -/
def skipWs : List Char → List Char
  | c :: cs => if c = ' ' ∨ c = '\t' ∨ c = '\n' ∨ c = '\r' then skipWs cs else c :: cs
  | [] => []

/-- Parse the body of a JSON string literal (after the opening quote), up to
the closing quote; escape sequences other than `\"` and `\\` are rejected. -/
def pString : List Char → Except PyError (String × List Char)
  | [] => .error .jsonDecodeError
  | '"' :: rest => .ok ("", rest)
  | '\\' :: '"' :: rest => do
      let (s, rest) ← pString rest
      .ok ("\"" ++ s, rest)
  | '\\' :: '\\' :: rest => do
      let (s, rest) ← pString rest
      .ok ("\\" ++ s, rest)
  | '\\' :: _ => .error .jsonDecodeError
  | c :: rest => do
      let (s, rest) ← pString rest
      .ok (String.mk [c] ++ s, rest)

/-- Parse a run of decimal digits into a natural number accumulator. -/
def pDigits : List Char → Nat → (Nat × List Char)
  | c :: cs, acc =>
      if c.isDigit then pDigits cs (acc * 10 + (c.toNat - '0'.toNat)) else (acc, c :: cs)
  | [], acc => (acc, [])

mutual

/-- Parse one JSON value.  Modelled from the spec: JSON decoding is an
external black box ("parse the decoded text as JSON on demand; fails with a
decoding error if the text is not valid JSON"); this is a standard
recursive-descent parser for null/true/false/integers/strings/arrays/objects,
with fuel to bound recursion. -/
def pValue : (fuel : Nat) → List Char → Except PyError (Json × List Char)
  | 0, _ => .error .jsonDecodeError
  | _ + 1, [] => .error .jsonDecodeError
  | fuel + 1, c :: cs =>
    match c, cs with
    | 'n', 'u' :: 'l' :: 'l' :: rest => .ok (.null, rest)
    | 't', 'r' :: 'u' :: 'e' :: rest => .ok (.bool true, rest)
    | 'f', 'a' :: 'l' :: 's' :: 'e' :: rest => .ok (.bool false, rest)
    | '"', rest => do
        let (s, rest) ← pString rest
        .ok (.str s, rest)
    | '-', d :: rest =>
        if d.isDigit then
          let (n, rest) := pDigits rest (d.toNat - '0'.toNat)
          .ok (.num (-(n : Int)), rest)
        else .error .jsonDecodeError
    | '[', rest =>
        (match skipWs rest with
         | ']' :: rest => .ok (.arr [], rest)
         | rest => do
             let (elems, rest) ← pElems fuel rest
             .ok (.arr elems, rest))
    | '\x7b', rest =>
        (match skipWs rest with
         | '\x7d' :: rest => .ok (.obj [], rest)
         | rest => do
             let (members, rest) ← pMembers fuel rest
             .ok (.obj members, rest))
    | d, rest =>
        if d.isDigit then
          let (n, rest) := pDigits rest (d.toNat - '0'.toNat)
          .ok (.num (n : Int), rest)
        else .error .jsonDecodeError

/-- Parse the comma-separated elements of a JSON array, ending at `]`. -/
def pElems : (fuel : Nat) → List Char → Except PyError (List Json × List Char)
  | 0, _ => .error .jsonDecodeError
  | fuel + 1, cs => do
      let (v, rest) ← pValue fuel (skipWs cs)
      match skipWs rest with
      | ',' :: rest => do
          let (vs, rest) ← pElems fuel rest
          .ok (v :: vs, rest)
      | ']' :: rest => .ok ([v], rest)
      | _ => .error .jsonDecodeError

/-- Parse the comma-separated `"key": value` members of a JSON object,
ending at the closing brace. -/
def pMembers : (fuel : Nat) → List Char → Except PyError (List (String × Json) × List Char)
  | 0, _ => .error .jsonDecodeError
  | fuel + 1, cs => do
      let (k, rest) ←
        match skipWs cs with
        | '"' :: rest => pString rest
        | _ => .error .jsonDecodeError
      let rest ←
        match skipWs rest with
        | ':' :: rest => .ok rest
        | _ => .error .jsonDecodeError
      let (v, rest) ← pValue fuel (skipWs rest)
      match skipWs rest with
      | ',' :: rest => do
          let (ms, rest) ← pMembers fuel rest
          .ok ((k, v) :: ms, rest)
      | '\x7d' :: rest => .ok ([(k, v)], rest)
      | _ => .error .jsonDecodeError

end

/-- `json.loads` applied to `self.text`.  On `None` text Python raises
`TypeError` (the JSON object must be str); on a string it parses one JSON
value and requires the remainder to be whitespace only. -/
def loads : Option String → Except PyError Json
  | none => .error .typeError
  | some s => do
      let (v, rest) ← pValue (s.length + 1) (skipWs s.data)
      match skipWs rest with
      | [] => .ok v
      | _ => .error .jsonDecodeError

/-- `Response.json` (src lines 31-37): load the response text as JSON. -/
def Response.json (r : Response) : Except PyError Json :=
  loads r.text

/-! ## ThreadExecutor (src lines 48-99) -/

/-- The poll result of `ThreadExecutor.finished`: the Python dict
`\x7b'finished': False\x7d` carries no data key; `\x7b'finished': True,
'data': d\x7d` carries the stored data. -/
inductive FinResult (α : Type) where
  | notFinished
  | finishedWith (d : Option α)
  deriving Repr, DecidableEq

/-- `ThreadExecutor` (src line 48): status string, stored result data, and
the monitored thread.  The thread is modelled as `some alive` where `alive`
is what its `is_alive()` reports at poll time, or `none` when no thread is
stored. -/
structure ThreadExecutor (α : Type) where
  status : String
  data : Option α
  thread : Option Bool
  deriving Repr, DecidableEq

/-- `ThreadExecutor.__init__` (src lines 49-57). -/
def ThreadExecutor.init (α : Type) : ThreadExecutor α :=
  { status := "not_started", data := none, thread := none }

/-- `ThreadExecutor.start` (src lines 59-69): reject unless idle, else store
the current thread (with aliveness `alive`) and move to running. -/
def ThreadExecutor.startEx (te : ThreadExecutor α) (alive : Bool) :
    Bool × ThreadExecutor α :=
  if te.status ≠ "not_started" then (false, te)
  else (true, { te with thread := some alive, status := "running" })

/-- `ThreadExecutor.set_data` (src lines 71-77). -/
def ThreadExecutor.set_data (te : ThreadExecutor α) (d : Option α) : ThreadExecutor α :=
  { te with data := d }

/-- `ThreadExecutor.finished` (src lines 79-91): when not running, or when
the monitored thread is still alive, report not finished; otherwise clear the
thread, reset status to idle and report finished with the stored data.
Accessing `self.thread.is_alive()` with no stored thread raises
`AttributeError`. -/
def ThreadExecutor.finished (te : ThreadExecutor α) :
    Except PyError (FinResult α × ThreadExecutor α) :=
  if te.status ≠ "running" then .ok (.notFinished, te)
  else
    match te.thread with
    | none => .error .attributeError
    | some alive =>
        if alive then .ok (.notFinished, te)
        else .ok (.finishedWith te.data,
                  { te with thread := none, status := "not_started" })

/-! ## Request execution (`__exec_req`, src lines 289-321) -/

/-- What the network transport hands back for one completed HTTP exchange:
status, headers and body bytes as read from the wire. -/
structure RespData where
  status : Nat
  headers : List (String × String)
  body : Bytes
  deriving Repr

/-- A transport oracle: the outcome of one HTTP exchange for a request,
either wire data or the exception the exchange raised. -/
abbrev Transport := Request → Except PyError RespData

/-- An observable handler invocation dispatched by `__exec_req`: the success
handler receives the built `Response`, the exception handler the caught
exception, each started on its own thread. -/
inductive ReqEvent where
  | successCall (r : Response)
  | exceptionCall (e : PyError)
  deriving Repr

/-- `__exec_req` (src lines 289-321), with the semaphore bracket abstracted
into the scheduling model below: perform the exchange through `transport`;
on success read the body only when `include_content` is set, build the
`Response`, dispatch the success handler when one is given, and return the
response; on any exception dispatch the exception handler when one is given
and fall off the `except` block, i.e. return `None`.  The result pairs the
returned value with the list of handler invocations dispatched. -/
def execReq (transport : Transport) (include_content : Bool)
    (hasExceptionHandler : Bool) (hasSuccessHandler : Bool) (req : Request) :
    Option Response × List ReqEvent :=
  match transport req with
  | .ok d =>
      let content := if include_content then some d.body else none
      let final := Response.make req.url d.status d.headers content
      (some final, if hasSuccessHandler then [.successCall final] else [])
  | .error e =>
      (none, if hasExceptionHandler then [.exceptionCall e] else [])

/-! ## The batch runner (`map` / `__make_reqs`, src lines 324-377) -/

/-- The filtering loop of `map` (src lines 364-368): drop entries that are
`None` or whose URL is empty (falsy), preserving the order of the rest. -/
def validReqs : List (Option Request) → List Request
  | [] => []
  | none :: rest => validReqs rest
  | some r :: rest =>
      if r.url = "" then validReqs rest else r :: validReqs rest

/-- Default number of concurrent connections (`size` parameter of `map`,
src line 349). -/
def defaultSize : Nat := 10

/-- One step of `asyncio.gather`'s collection: when the task for index `i`
completes, its outcome is written into slot `i` of the result frame; reading
the frame never depends on when that write happened. -/
def completeTask (outcomes : List α) (slots : List (Option α)) (i : Nat) :
    List (Option α) :=
  match outcomes.get? i with
  | some v => slots.set i (some v)
  | none => slots

/-- `asyncio.gather` over the tasks of `__make_reqs` (src lines 341-345),
run under a completion schedule `sched`: the task for each index finishes in
the order given by `sched` (any interleaving the event loop produces), each
writing its own outcome into its own slot of the result frame. -/
def runCompletions (outcomes : List α) (sched : List Nat) : List (Option α) :=
  sched.foldl (completeTask outcomes) (List.replicate outcomes.length none)

/-- The batch runner `map` (src lines 349-377) composed with `__make_reqs`
(src lines 324-346), under a completion schedule: filter the input, create
one task per filtered request whose outcome is `__exec_req`'s returned value,
let them complete in schedule order, and return the gathered frame. -/
def mapModel (transport : Transport) (include_content : Bool)
    (hasExceptionHandler : Bool) (hasSuccessHandler : Bool)
    (reqs : List (Option Request)) (sched : List Nat) :
    List (Option (Option Response)) :=
  runCompletions
    ((validReqs reqs).map
      (fun r => (execReq transport include_content hasExceptionHandler hasSuccessHandler r).1))
    sched

/-! ## The concurrency gate (src lines 306-309 and 338)

`__make_reqs` creates `asyncio.Semaphore(size)` and every `__exec_req` wraps
its whole network phase in `async with sem`.  The cooperative scheduler is
modelled as a transition system over the phases of the batch's tasks: a task
may enter its network phase only when fewer than `size` tasks are in theirs
(semaphore acquire), and leaving the phase releases the slot. -/

/-- The phase of one task of a batch: not yet through the semaphore, inside
the `async with sem` network phase, or completed. -/
inductive Phase where
  | waiting
  | inNet
  | done
  deriving Repr, DecidableEq

/-- Number of tasks currently inside their network phase. -/
def inNetCount (s : List Phase) : Nat :=
  s.countP (· = Phase.inNet)

/-- One scheduler step of a batch with semaphore capacity `size`: `acquire`
moves a waiting task into its network phase, enabled only when the semaphore
has a free slot (`inNetCount s < size`); `release` completes a task that is
in its network phase, freeing its slot (the `async with` bracket releases on
every exit path, success or exception). -/
inductive GateStep (size : Nat) : List Phase → List Phase → Prop
  | acquire (s : List Phase) (i : Nat) (hi : s.get? i = some .waiting)
      (hsem : inNetCount s < size) : GateStep size s (s.set i .inNet)
  | release (s : List Phase) (i : Nat) (hi : s.get? i = some .inNet) :
      GateStep size s (s.set i .done)

/-- States of one batch reachable from all tasks waiting, by scheduler
steps. -/
inductive GateReachable (size : Nat) (n : Nat) : List Phase → Prop
  | init : GateReachable size n (List.replicate n .waiting)
  | step (s s' : List Phase) : GateReachable size n s → GateStep size s s' →
      GateReachable size n s'

/-! ## Lemmas about the gather model -/

theorem completeTask_length (outcomes : List α) (slots : List (Option α)) (i : Nat) :
    (completeTask outcomes slots i).length = slots.length := by
  unfold completeTask
  cases outcomes.get? i <;> simp

theorem foldl_completeTask_length (outcomes : List α) (sched : List Nat)
    (slots : List (Option α)) :
    (sched.foldl (completeTask outcomes) slots).length = slots.length := by
  induction sched generalizing slots with
  | nil => rfl
  | cons i rest ih =>
      rw [List.foldl_cons, ih, completeTask_length]

theorem foldl_completeTask_get_preserved (outcomes : List α) (sched : List Nat)
    (slots : List (Option α)) (j : Nat) (v : α) (hv : outcomes.get? j = some v)
    (hj : slots.get? j = some (some v)) :
    (sched.foldl (completeTask outcomes) slots).get? j = some (some v) := by
  induction sched generalizing slots with
  | nil => exact hj
  | cons i rest ih =>
      rw [List.foldl_cons]
      apply ih
      unfold completeTask
      cases h : outcomes.get? i with
      | none => exact hj
      | some w =>
          by_cases hij : i = j
          · subst hij
            rw [hv] at h
            cases h
            have hlt : i < slots.length := (List.get?_eq_some.mp hj).1
            rw [List.get?_set_eq_of_lt _ hlt]
          · rw [List.get?_set_ne _ _ hij]
            exact hj

theorem foldl_completeTask_get_mem (outcomes : List α) (sched : List Nat)
    (slots : List (Option α)) (hlen : slots.length = outcomes.length)
    (j : Nat) (v : α) (hv : outcomes.get? j = some v) (hmem : j ∈ sched) :
    (sched.foldl (completeTask outcomes) slots).get? j = some (some v) := by
  induction sched generalizing slots with
  | nil => cases hmem
  | cons i rest ih =>
      rw [List.foldl_cons]
      by_cases hij : i = j
      · subst hij
        apply foldl_completeTask_get_preserved _ _ _ _ _ hv
        unfold completeTask
        rw [hv]
        have hlt : i < slots.length := by
          rw [hlen]
          exact (List.get?_eq_some.mp hv).1
        rw [List.get?_set_eq_of_lt _ hlt]
      · rcases List.mem_cons.mp hmem with h | hmem'
        · exact absurd h.symm hij
        · exact ih (completeTask outcomes slots i)
            (by rw [completeTask_length, hlen]) hmem'

/-- The gather frame after any completion schedule that covers every task
index holds exactly the task outcomes, in task-index order. -/
theorem runCompletions_eq_of_covers (outcomes : List α) (sched : List Nat)
    (hcover : ∀ i, i < outcomes.length → i ∈ sched) :
    runCompletions outcomes sched = outcomes.map some := by
  apply List.ext_get?
  intro j
  by_cases hj : j < outcomes.length
  · have hv' : outcomes.get? j = some (outcomes.get ⟨j, hj⟩) := List.get?_eq_get hj
    rw [runCompletions, foldl_completeTask_get_mem outcomes sched _
      (by rw [List.length_replicate]) j _ hv' (hcover j hj)]
    rw [List.get?_map, hv']
    rfl
  · have h1 : (runCompletions outcomes sched).get? j = none := by
      apply List.get?_eq_none.mpr
      rw [runCompletions, foldl_completeTask_length, List.length_replicate]
      omega
    have h2 : (outcomes.map some).get? j = none := by
      apply List.get?_eq_none.mpr
      rw [List.length_map]
      omega
    rw [h1, h2]

/-! ## Lemmas about the concurrency gate -/

theorem inNetCount_replicate_waiting (n : Nat) :
    inNetCount (List.replicate n .waiting) = 0 := by
  induction n with
  | zero => rfl
  | succ n ih =>
      rw [List.replicate_succ, inNetCount, List.countP_cons]
      simp only [inNetCount] at ih
      simp [ih]

theorem inNetCount_set_inNet_le (s : List Phase) (i : Nat) :
    inNetCount (s.set i .inNet) ≤ inNetCount s + 1 := by
  induction s generalizing i with
  | nil => simp [inNetCount]
  | cons a rest ih =>
      cases i with
      | zero =>
          simp only [List.set, inNetCount, List.countP_cons]
          have : List.countP (fun x => decide (x = Phase.inNet)) rest ≤
              List.countP (fun x => decide (x = Phase.inNet)) rest := le_refl _
          split <;> split <;> omega
      | succ i =>
          simp only [List.set, inNetCount, List.countP_cons]
          have := ih i
          simp only [inNetCount] at this
          omega

theorem inNetCount_set_done_le (s : List Phase) (i : Nat) :
    inNetCount (s.set i .done) ≤ inNetCount s := by
  induction s generalizing i with
  | nil => simp [inNetCount]
  | cons a rest ih =>
      cases i with
      | zero =>
          simp only [List.set, inNetCount, List.countP_cons]
          split <;> split <;> simp_all
      | succ i =>
          simp only [List.set, inNetCount, List.countP_cons]
          have := ih i
          simp only [inNetCount] at this
          omega

/-! ## The claims -/

/-- C1: for every input list of descriptors, the batch runner returns a list
whose length equals the number of filtered entries (inputs that are not
`None` and have a non-empty URL), and whose i-th entry holds the outcome
(`Response` or `None`) of the i-th filtered descriptor in original submission
order, for every completion schedule that finishes all tasks — i.e.
regardless of the order in which the network calls complete. -/
theorem map_result_aligned_with_filtered_input (transport : Transport)
    (ic he hs : Bool) (reqs : List (Option Request)) (sched : List Nat)
    (hsched : ∀ i, i < (validReqs reqs).length → i ∈ sched) :
    (mapModel transport ic he hs reqs sched).length = (validReqs reqs).length ∧
    ∀ i (hi : i < (validReqs reqs).length),
      (mapModel transport ic he hs reqs sched).get? i =
        some (some (execReq transport ic he hs ((validReqs reqs).get ⟨i, hi⟩)).1) := by
  have key : mapModel transport ic he hs reqs sched =
      ((validReqs reqs).map (fun r => (execReq transport ic he hs r).1)).map some := by
    unfold mapModel
    exact runCompletions_eq_of_covers _ _ (by simpa using hsched)
  constructor
  · rw [key]
    simp
  · intro i hi
    rw [key, List.get?_map, List.get?_map, List.get?_eq_get hi]
    rfl

theorem map_result_aligned_witness :
    (mapModel (fun _ => .error .typeError) true true true
        [some ⟨"GET", "http://a", none, none, none, none, none, []⟩, none,
         some ⟨"GET", "", none, none, none, none, none, []⟩,
         some ⟨"GET", "http://b", none, none, none, none, none, []⟩]
        [1, 0]).length = 2 ∧
    (mapModel (fun _ => .error .typeError) true true true
        [some ⟨"GET", "http://a", none, none, none, none, none, []⟩, none,
         some ⟨"GET", "", none, none, none, none, none, []⟩,
         some ⟨"GET", "http://b", none, none, none, none, none, []⟩]
        [1, 0]).get? 0 = some (some none) := by
  have h := map_result_aligned_with_filtered_input (fun _ => .error .typeError) true true true
      [some ⟨"GET", "http://a", none, none, none, none, none, []⟩, none,
       some ⟨"GET", "", none, none, none, none, none, []⟩,
       some ⟨"GET", "http://b", none, none, none, none, none, []⟩]
      [1, 0] (by decide)
  refine ⟨h.1, ?_⟩
  rw [h.2 0 (by decide)]
  rfl

/-- C2: within one batch run with semaphore capacity `size`, every state
reachable by scheduler steps has at most `size` tasks inside their network
phase (tasks beyond the capacity wait at the acquire guard); the default
capacity is 10. -/
theorem gate_bounds_inflight (size n : Nat) (s : List Phase)
    (h : GateReachable size n s) :
    inNetCount s ≤ size ∧ defaultSize = 10 := by
  refine ⟨?_, rfl⟩
  induction h with
  | init =>
      rw [inNetCount_replicate_waiting]
      exact Nat.zero_le _
  | step t t' hr hstep ih =>
      cases hstep with
      | acquire i hi hsem =>
          have := inNetCount_set_inNet_le t i
          omega
      | release i hi =>
          have := inNetCount_set_done_le t i
          omega

theorem gate_bounds_inflight_witness :
    inNetCount [Phase.inNet, Phase.waiting] ≤ 1 ∧ defaultSize = 10 := by
  have hstep : GateStep 1 (List.replicate 2 .waiting) [Phase.inNet, Phase.waiting] :=
    GateStep.acquire _ 0 rfl (by decide)
  exact gate_bounds_inflight 1 2 _ (GateReachable.step _ _ GateReachable.init hstep)

/-- C3: when the HTTP exchange for a request fails, `__exec_req` returns
`None` and dispatches the exception handler exactly once with the error
(and nothing when no handler is given), and the batch still returns a full
result sequence with `None` stored at that request's filtered index — the
failure never escapes `map`. -/
theorem request_failure_absorbed (transport : Transport) (ic hs : Bool)
    (req : Request) (e : PyError) (hfail : transport req = .error e) :
    execReq transport ic true hs req = (none, [.exceptionCall e]) ∧
    execReq transport ic false hs req = (none, []) ∧
    ∀ (reqs : List (Option Request)) (sched : List Nat),
      (∀ i, i < (validReqs reqs).length → i ∈ sched) →
      (mapModel transport ic true hs reqs sched).length = (validReqs reqs).length ∧
      ∀ i (hi : i < (validReqs reqs).length),
        (validReqs reqs).get ⟨i, hi⟩ = req →
        (mapModel transport ic true hs reqs sched).get? i = some (some none) := by
  refine ⟨by simp [execReq, hfail], by simp [execReq, hfail], ?_⟩
  intro reqs sched hcov
  have key : mapModel transport ic true hs reqs sched =
      ((validReqs reqs).map (fun r => (execReq transport ic true hs r).1)).map some := by
    unfold mapModel
    exact runCompletions_eq_of_covers _ _ (by simpa using hcov)
  constructor
  · rw [key]
    simp
  · intro i hi hreq
    rw [key, List.get?_map, List.get?_map, List.get?_eq_get hi, hreq]
    have hnone : (execReq transport ic true hs req).1 = none := by
      simp [execReq, hfail]
    simp [hnone]

theorem request_failure_absorbed_witness :
    execReq (fun _ => .error .typeError) true true true
        ⟨"GET", "http://a", none, none, none, none, none, []⟩ =
      (none, [.exceptionCall .typeError]) ∧
    (mapModel (fun _ => .error .typeError) true true true
        [some ⟨"GET", "http://a", none, none, none, none, none, []⟩] [0]).get? 0 =
      some (some none) := by
  have h := request_failure_absorbed (fun _ => .error .typeError) true true
      ⟨"GET", "http://a", none, none, none, none, none, []⟩ .typeError rfl
  exact ⟨h.1, (h.2.2 [some ⟨"GET", "http://a", none, none, none, none, none, []⟩] [0]
    (by decide)).2 0 (by decide) rfl⟩

/-- C4 counterexample: the claim "descriptor construction via `request`
never raises for any proxies value — string, mapping, or None" is false:
with a supported method and an *empty* mapping as proxies,
`list(proxies.values())[0]` raises `IndexError`. -/
theorem request_raises_on_empty_proxy_dict :
    request "GET" "http://a" none none none none (some (.dict [])) none =
      .error .indexError := rfl

/-- C4 (amended): for every method string and every proxies value that is
`None`, a string, or a *non-empty* mapping, descriptor construction via
`request` never raises: an unsupported method yields no descriptor (`None`)
and a malformed proxy string yields a descriptor with no proxy.  (With an
empty mapping it raises `IndexError`, see the counterexample.) -/
theorem request_no_raise_amended (method url : String) (p : Option Proxies)
    (hp : p ≠ some (.dict [])) :
    (∃ res, request method url none none none none p none = .ok res) ∧
    (pyUpper method ∉ supportedMethods →
      request method url none none none none p none = .ok none) ∧
    (∀ s, p = some (.str s) → startswith s proxyPrefixes = false →
      pyUpper method ∈ supportedMethods →
      ∃ r, request method url none none none none p none = .ok (some r) ∧
        r.proxies = none) := by
  refine ⟨?_, ?_, ?_⟩
  · by_cases hm : pyUpper method ∈ supportedMethods
    · match p, hp with
      | none, _ =>
          refine ⟨some ⟨pyUpper method, url, none, none, none, none, none,
            ["Content-Type"]⟩, ?_⟩
          simp [request, hm, pure, Except.pure, Bind.bind, Except.bind]
      | some (.str s), _ =>
          refine ⟨some ⟨pyUpper method, url, none, none, none, none,
            if startswith s proxyPrefixes then some (ProxyConn.fromUrl s) else none,
            ["Content-Type"]⟩, ?_⟩
          simp [request, hm, pure, Except.pure, Bind.bind, Except.bind]
      | some (.dict ((k, v) :: rest)), _ =>
          refine ⟨some ⟨pyUpper method, url, none, none, none, none,
            if startswith v proxyPrefixes then some (ProxyConn.fromUrl v) else none,
            ["Content-Type"]⟩, ?_⟩
          simp [request, hm, pure, Except.pure, Bind.bind, Except.bind]
    · exact ⟨none, by simp [request, hm, pure, Except.pure]⟩
  · intro hm
    simp [request, hm, pure, Except.pure]
  · rintro s rfl hsw hm
    simp [request, hm, hsw, pure, Except.pure, Bind.bind, Except.bind]

theorem request_no_raise_amended_witness :
    ∃ r, request "get" "http://a" none none none none (some (.str "ftp://x")) none =
        .ok (some r) ∧ r.proxies = none := by
  have h := request_no_raise_amended "get" "http://a" (some (.str "ftp://x")) (by simp)
  exact h.2.2 "ftp://x" rfl (by decide) (by decide)

/-- C5: `Response.json()` on a response whose captured body decodes to the
text `\x7b"a":1\x7d` returns the corresponding mapping; on a response with no
captured body (text absent) it fails at call time with a `TypeError`, and on
a response whose text is not valid JSON it fails at call time with a decode
error. -/
theorem response_json_decode :
    (Response.make "http://a" 200 [] (some (strBytes "\x7b\"a\":1\x7d"))).json =
      .ok (.obj [("a", .num 1)]) ∧
    (∀ url status headers,
      (Response.make url status headers none).json = .error .typeError) ∧
    (Response.make "http://a" 200 [] (some (strBytes "not json"))).json =
      .error .jsonDecodeError := by
  refine ⟨rfl, ?_, rfl⟩
  intro url status headers
  rfl

/-- C6: for every method string whose uppercasing is not one of the seven
supported verbs, and any other arguments whatsoever, `request` returns no
descriptor (`.ok none`) rather than raising an error — the method test comes
before proxy handling, so even an empty proxy mapping cannot raise here. -/
theorem unsupported_method_yields_none (method url : String)
    (params dat jsn : Option String) (headers : Option (List (String × String)))
    (p : Option Proxies) (sk : Option (List String))
    (h : pyUpper method ∉ supportedMethods) :
    request method url params dat jsn headers p sk = .ok none := by
  simp [request, h, pure, Except.pure]

theorem unsupported_method_yields_none_witness :
    request "TRACE" "http://a" none none none none (some (.dict [])) none = .ok none :=
  unsupported_method_yields_none "TRACE" "http://a" none none none none
    (some (.dict [])) none (by decide)

/-- C7: with a supported method, a proxy mapping is reduced to its first
value (the request built from the mapping equals the one built from that
value alone); a proxy string whose prefix is not among http/https/socks4/
socks5 is silently dropped (descriptor built with no proxy), and one whose
prefix matches is resolved into a connector configuration stored on the
descriptor. -/
theorem proxy_first_value_prefix_gate (method url k v : String)
    (rest : List (String × String)) (hm : pyUpper method ∈ supportedMethods) :
    (request method url none none none none (some (.dict ((k, v) :: rest))) none =
      request method url none none none none (some (.str v)) none) ∧
    (startswith v proxyPrefixes = false →
      ∃ r, request method url none none none none (some (.str v)) none =
        .ok (some r) ∧ r.proxies = none) ∧
    (startswith v proxyPrefixes = true →
      ∃ r, request method url none none none none (some (.str v)) none =
        .ok (some r) ∧ r.proxies = some (.fromUrl v)) := by
  refine ⟨by simp [request, hm], ?_, ?_⟩
  · intro hsw
    simp [request, hm, hsw, pure, Except.pure, Bind.bind, Except.bind]
  · intro hsw
    simp [request, hm, hsw, pure, Except.pure, Bind.bind, Except.bind]

theorem proxy_first_value_prefix_gate_witness :
    (request "GET" "http://a" none none none none
        (some (.dict [("https", "socks5://h:1"), ("http", "ignored")])) none =
      request "GET" "http://a" none none none none (some (.str "socks5://h:1")) none) ∧
    ∃ r, request "GET" "http://a" none none none none (some (.str "socks5://h:1")) none =
        .ok (some r) ∧ r.proxies = some (.fromUrl "socks5://h:1") := by
  have h := proxy_first_value_prefix_gate "GET" "http://a" "https" "socks5://h:1"
      [("http", "ignored")] (by decide)
  exact ⟨h.1, h.2.2 (by decide)⟩

/-- C8: for every builder call in which both the body (`data`) and the JSON
body are absent, whenever a descriptor is returned its header-suppression
list contains "Content-Type". -/
theorem content_type_suppressed (method url : String) (params : Option String)
    (headers : Option (List (String × String))) (p : Option Proxies)
    (sk : Option (List String)) (r : Request)
    (h : request method url params none none headers p sk = .ok (some r)) :
    "Content-Type" ∈ r.skip_headers := by
  by_cases hm : pyUpper method ∈ supportedMethods
  · match p with
    | none =>
        simp only [request, hm, not_true_eq_false, if_false, pure, Except.pure,
          Bind.bind, Except.bind, if_neg] at h
        simp_all
        rw [← h]
        simp
    | some (.str s) =>
        simp_all [request, hm, pure, Except.pure, Bind.bind, Except.bind]
        rw [← h]
        simp
    | some (.dict []) =>
        simp_all [request, hm, pure, Except.pure, Bind.bind, Except.bind]
    | some (.dict ((k, v) :: rest)) =>
        simp_all [request, hm, pure, Except.pure, Bind.bind, Except.bind]
        rw [← h]
        simp
  · simp_all [request, hm, pure, Except.pure]

theorem content_type_suppressed_witness :
    "Content-Type" ∈
      (⟨"GET", "http://a", none, none, none, none, none, ["Content-Type"]⟩ :
        Request).skip_headers := by
  exact content_type_suppressed "GET" "http://a" none none none none
    ⟨"GET", "http://a", none, none, none, none, none, ["Content-Type"]⟩ rfl

/-- C9: `ThreadExecutor.finished` is a one-shot consume: after a started
run's worker has exited (the monitored thread's `is_alive()` is false), the
first poll reports finished with the stored result data and resets the state
to idle (`not_started`, no thread); a second poll without an intervening
start reports not finished and delivers no data. -/
theorem finished_one_shot {α : Type} (d : Option α) :
    ThreadExecutor.finished (((ThreadExecutor.init α).startEx false).2.set_data d) =
      .ok (.finishedWith d, ⟨"not_started", d, none⟩) ∧
    ThreadExecutor.finished (⟨"not_started", d, none⟩ : ThreadExecutor α) =
      .ok (.notFinished, ⟨"not_started", d, none⟩) :=
  ⟨rfl, rfl⟩

/-- C10: method matching is case-insensitive and normalizing: for every
method string whose uppercasing is one of the seven supported verbs,
construction succeeds and the returned descriptor's method field is the
uppercased form. -/
theorem method_uppercase_normalized (method url : String)
    (hm : pyUpper method ∈ supportedMethods) :
    ∃ r, request method url none none none none none none = .ok (some r) ∧
      r.method = pyUpper method := by
  simp [request, hm, pure, Except.pure, Bind.bind, Except.bind]

theorem method_uppercase_normalized_witness :
    ∃ r, request "get" "http://a" none none none none none none = .ok (some r) ∧
      r.method = "GET" := by
  obtain ⟨r, h1, h2⟩ := method_uppercase_normalized "get" "http://a" (by decide)
  exact ⟨r, h1, by rw [h2]; rfl⟩

end GachiHttp
